import Mathlib

/-!
Shallow embedding of the aframe-firebase-component synchronization core
(src/index.js) and proofs about its specification claims.

The embedding models:
  * JavaScript values carried in wire records and entity attributes (`Value`),
    with JS truthiness and property-access semantics;
  * local scene entities as heap-allocated records (`Entity`) addressed by
    numeric references, with the A-Frame attribute accessors;
  * the firebase system state (`SystemState`): the Replica Table
    (`entities`), the Broadcast Table (`broadcastingEntities`), the client
    identity, the connection flag, the broadcast interval/time and the
    stream of outbound updates issued to the remote store;
  * the five operations of the system: `initSystem`, `handleEntityAdded`,
    `handleEntityChanged`, `handleEntityRemoved`, `registerBroadcast` and
    `tick` (with its per-entity body `broadcastEntity`).

Each operation returns `SystemState × Bool`; the boolean is `false` exactly
when the original JavaScript would raise a TypeError at that point (for
example property access on `undefined`), with the state reflecting the
mutations performed before the raise.
-/

namespace AframeFirebase

/-- A JavaScript value carried in a synchronized record or in an entity
attribute: a boolean, a string, or an object given by its fields. -/
inductive Value where
  | vbool (b : Bool)
  | vstr (s : String)
  | vobj (fields : List (String × Value))

/-- Association-list lookup; the first binding wins, as in JS property
access on the objects used as tables in src/index.js. -/
def alistLookup {κ α : Type} [DecidableEq κ] : List (κ × α) → κ → Option α
  | [], _ => none
  | (k', v) :: rest, k => if k' = k then some v else alistLookup rest k

/-- Association-list insert-or-replace, as JS property assignment: an
existing key keeps its position, a new key is appended. -/
def alistInsert {κ α : Type} [DecidableEq κ] : List (κ × α) → κ → α → List (κ × α)
  | [], k, v => [(k, v)]
  | (k', v') :: rest, k, v =>
    if k' = k then (k, v) :: rest else (k', v') :: alistInsert rest k v

/-- Association-list key removal, as the JS `delete` statement. -/
def alistErase {κ α : Type} [DecidableEq κ] : List (κ × α) → κ → List (κ × α)
  | [], _ => []
  | (k', v') :: rest, k =>
    if k' = k then rest else (k', v') :: alistErase rest k

/-- JS truthiness of a value. -/
def truthy : Value → Bool
  | .vbool b => b
  | .vstr s => !(s == "")
  | .vobj _ => true

/-- JS truthiness of a possibly-undefined value. -/
def truthyOpt (o : Option Value) : Bool := (o.map truthy).getD false

/-- JS truthiness of a table slot holding a possibly-null entity reference
(used by the `this.entities[id] || ...` checks). -/
def truthyRef (o : Option (Option Nat)) : Bool :=
  match o with
  | some (some _) => true
  | _ => false

/-- JS string coercion, as used in the selector string built at
src/index.js line 83. -/
def jsToString : Value → String
  | .vbool b => toString b
  | .vstr s => s
  | .vobj _ => "[object Object]"

/-- Property access `v[k]` on a value: objects look the field up, other
values yield `undefined` (`none`). -/
def getField : Value → String → Option Value
  | .vobj fs, k => alistLookup fs k
  | _, _ => none

/-- Test for `data['firebase-broadcast'].shared === true` (strict equality
with boolean `true`), src/index.js line 82. -/
def isSharedTrue (v : Value) : Bool :=
  match getField v "shared" with
  | some (.vbool true) => true
  | _ => false

/-- Splitting a character list at every occurrence of a separator
character. -/
def splitOnChar (c : Char) : List Char → List (List Char)
  | [] => [[]]
  | x :: xs =>
    let r := splitOnChar c xs
    if x = c then [] :: r
    else
      match r with
      | [] => [[x]]
      | y :: ys => (x :: y) :: ys

/-- The JS `attribute.split('|')` used by the attribute accessors
(src/index.js lines 252 and 264). -/
def splitPipe (s : String) : List String :=
  (splitOnChar '|' s.data).map (fun l => String.mk l)

/-- The data of the `firebase-broadcast` component, following its schema at
src/index.js lines 231-237. -/
structure BroadcastData where
  id : String
  components : List String
  componentsOnce : List String
  shared : Bool
  owner : String
deriving DecidableEq

/-- Schema defaults of the `firebase-broadcast` component. -/
def defaultBroadcastData : BroadcastData :=
  { id := "", components := ["position", "rotation"], componentsOnce := [],
    shared := false, owner := "" }

/-- Building `firebase-broadcast` component data from a wholesale
`setAttribute` value: present fields are taken from the value, missing
fields reset to their schema defaults (this is the wipe the comment at
src/index.js line 92 warns about). Array-typed fields always take their
defaults here since wire values carry no arrays in this model. -/
def bdFromValue (v : Value) : BroadcastData :=
  { id :=
      match getField v "id" with
      | some (.vstr s) => s
      | _ => ""
    components := ["position", "rotation"]
    componentsOnce := []
    shared :=
      match getField v "shared" with
      | some (.vbool b) => b
      | _ => false
    owner :=
      match getField v "owner" with
      | some (.vstr s) => s
      | _ => "" }

/-- The parent link of a local entity: detached, attached to the scene
root, or attached under another entity. -/
inductive ParentRef where
  | null
  | scene
  | ent (r : Nat)
deriving DecidableEq

/-- A local scene entity: its DOM id attribute, its generic component
attributes, its `firebase-broadcast` component data when attached, the
engine-private once-sent flag stored on the element (src/index.js line
191), and its parent link. -/
structure Entity where
  domId : String
  attrs : List (String × Value)
  broadcast : Option BroadcastData
  firebaseBroadcastOnce : Bool
  parent : ParentRef

/-- A freshly created `a-entity` element (src/index.js line 85). -/
def newEntity : Entity :=
  { domId := "", attrs := [], broadcast := none,
    firebaseBroadcastOnce := false, parent := .null }

/-- The `setAttribute` helper of src/index.js lines 262-270, acting on one
entity. A name `a|b` sets the single property `b` of component `a`; the
name `firebase-broadcast` replaces that component's data wholesale; the
name `id` sets the DOM id attribute; any other name replaces the attribute
value. -/
def setAttributeOn (el : Entity) (name : String) (v : Value) : Entity :=
  if name == "firebase-broadcast" then { el with broadcast := some (bdFromValue v) }
  else if name == "id" then { el with domId := jsToString v }
  else
    match splitPipe name with
    | [a, b] =>
      let cur :=
        match alistLookup el.attrs a with
        | some (.vobj l) => Value.vobj (alistInsert l b v)
        | _ => Value.vobj [(b, v)]
      { el with attrs := alistInsert el.attrs a cur }
    | _ => { el with attrs := alistInsert el.attrs name v }

/-- The `getComputedAttribute` helper of src/index.js lines 250-257, acting
on one entity. For a name `a|b` whose base component `a` is absent the
JS indexes `undefined` and raises; the outer `none` models that raise. -/
def getComputedAttributeOn (el : Entity) (name : String) : Option (Option Value) :=
  match splitPipe name with
  | [a, b] =>
    match alistLookup el.attrs a with
    | none => none
    | some v => some (getField v b)
  | _ => some (alistLookup el.attrs name)

/-- One outbound update issued by the tick at src/index.js line 207: the
Broadcast Table key it is stored under, the `id` field, the
`firebase-broadcast` meta fields, the optional `parentId`, and the
component values read from the entity. -/
structure OutRecord where
  key : String
  dataId : String
  shared : Bool
  owner : Option String
  parentId : Option String
  comps : List (String × Option Value)

/-- The state of the firebase system: the entity heap standing for the
scene document, the Replica Table (`entities`, whose slots can hold a null
reference when a shared lookup missed), the Broadcast Table
(`broadcastingEntities`), the client identity, the connection flag  and
channel, the broadcast interval and last-executed-tick time, a counter
feeding the store's unique-key generator, the outbound updates issued so
far, and the on-disconnect removals registered at the store. -/
structure SystemState where
  heap : List (Nat × Entity)
  nextRef : Nat
  entities : List (String × Option Nat)
  broadcastingEntities : List (String × Nat)
  clientId : String
  connected : Bool
  channel : String
  interval : Int
  time : Option Int
  nextKey : Nat
  outbound : List OutRecord
  disconnectRemovals : List String

/-- Updating one heap entity in place. -/
def heapModify (st : SystemState) (r : Nat) (f : Entity → Entity) : SystemState :=
  { st with heap := st.heap.map (fun p => if p.1 = r then (p.1, f p.2) else p) }

/-- The `sceneEl.querySelector('#' + ...)` lookup of src/index.js line 83:
the first entity whose DOM id matches, if any (scene scoping is abstracted
to the whole heap). -/
def querySelectorId (st : SystemState) (s : String) : Option Nat :=
  (st.heap.find? (fun p => p.2.domId == s)).map (fun p => p.1)

/-- JS `a || b` for an optional string where the empty string is falsy. -/
def jsOrStr (v : Option String) (d : String) : String :=
  match v with
  | some s => if s == "" then d else s
  | none => d

/-- JS `a || b` for an optional number where zero is falsy. -/
def jsOrInt (v : Option Int) (d : Int) : Int :=
  match v with
  | some i => if i == 0 then d else i
  | none => d

/-- The configuration keys of the `firebase` scene component that affect
core state (src/index.js lines 217-224); the remaining keys only
parameterize the external store connection. -/
structure FirebaseConfig where
  channel : Option String
  interval : Option Int

/-- System initialization, src/index.js lines 15-58. Tables and the client
identity are set up first; with no usable configuration the function
returns there (line 31) leaving the engine inert (never connected).
Otherwise the channel is resolved with query-parameter precedence (line
34) and the interval defaults to 10 (line 40, where a configured 0 is
falsy). The store subscriptions themselves are external. -/
def initSystem (queryChannel : Option String) (config : Option FirebaseConfig)
    (clientId : String) : SystemState :=
  let base : SystemState :=
    { heap := [], nextRef := 0, entities := [], broadcastingEntities := [],
      clientId := clientId, connected := false, channel := "", interval := 0,
      time := none, nextKey := 0, outbound := [], disconnectRemovals := [] }
  match config with
  | none => base
  | some c =>
    { base with
      connected := true
      channel := jsOrStr queryChannel (jsOrStr c.channel "default")
      interval := jsOrInt c.interval 10 }

/-- The component-application loop shared by the added handler
(src/index.js lines 91-95, which skips `firebase-broadcast` and
`parentId`) and the changed handler (lines 111-114, which skips only
`parentId`). The entity may be missing (`none`): touching it then raises,
as `setAttribute` on `undefined` does, with fields before that point
already applied. -/
def applyFields (skipBroadcastMeta : Bool) (entity : Option Nat) :
    List (String × Value) → SystemState → SystemState × Bool
  | [], st => (st, true)
  | (name, v) :: rest, st =>
    if name == "parentId" || (skipBroadcastMeta && name == "firebase-broadcast") then
      applyFields skipBroadcastMeta entity rest st
    else
      match entity with
      | none => (st, false)
      | some r =>
        applyFields skipBroadcastMeta entity rest
          (heapModify st r (fun el => setAttributeOn el name v))

/-- The `handleEntityAdded` handler, src/index.js lines 75-101. Known
identifiers (truthy in either table) are ignored. The record's
`firebase-broadcast` field is read unconditionally (line 82): a record
without it raises. A shared record with a truthy `id` reuses the scene
entity with that DOM id (possibly a null reference on a miss); otherwise a
fresh entity is created. The handle is stored in the Replica Table before
the component loop, and only a created entity is appended under the
resolved parent. -/
def handleEntityAdded (id : String) (data : List (String × Value))
    (st : SystemState) : SystemState × Bool :=
  if truthyRef (alistLookup st.entities id) || (alistLookup st.broadcastingEntities id).isSome then
    (st, true)
  else
    match alistLookup data "firebase-broadcast" with
    | none => (st, false)
    | some fbv =>
      if isSharedTrue fbv && truthyOpt (alistLookup data "id") then
        let entity := querySelectorId st (jsToString ((alistLookup data "id").getD (Value.vstr "")))
        let st1 := { st with entities := alistInsert st.entities id entity }
        applyFields true entity data st1
      else
        let r := st.nextRef
        let st1 := { st with
          heap := alistInsert st.heap r newEntity
          nextRef := r + 1
          entities := alistInsert st.entities id (some r) }
        match applyFields true (some r) data st1 with
        | (st2, false) => (st2, false)
        | (st2, true) =>
          let parentEl : ParentRef :=
            match alistLookup data "parentId" with
            | some (.vstr s) =>
              match alistLookup st2.entities s with
              | some (some p) => .ent p
              | _ => .scene
            | _ => .scene
          (heapModify st2 r (fun e => { e with parent := parentEl }), true)

/-- The `handleEntityChanged` handler, src/index.js lines 106-115. An
identifier present in the Broadcast Table is skipped (line 108); otherwise
every field except `parentId` is applied to the Replica Table entity —
whose existence is never checked: an unknown identifier gives an undefined
handle and the first applied field raises. -/
def handleEntityChanged (id : String) (components : List (String × Value))
    (st : SystemState) : SystemState × Bool :=
  if (alistLookup st.broadcastingEntities id).isSome then (st, true)
  else
    let entity : Option Nat :=
      match alistLookup st.entities id with
      | some (some r) => some r
      | _ => none
    applyFields false entity components st

/-- The `handleEntityRemoved` handler, src/index.js lines 120-125: unknown
identifiers are ignored; otherwise the entity is detached from its parent
(a detached entity has no parent node and the removal raises) and its
Replica Table entry erased. -/
def handleEntityRemoved (id : String) (st : SystemState) : SystemState × Bool :=
  match alistLookup st.entities id with
  | some (some r) =>
    match alistLookup st.heap r with
    | none => (st, false)
    | some el =>
      match el.parent with
      | .null => (st, false)
      | _ =>
        ({ heapModify st r (fun e => { e with parent := .null }) with
           entities := alistErase st.entities id }, true)
  | _ => (st, true)

/-- The `handleInitialSync` handler, src/index.js lines 63-70: every
snapshot entry whose identifier is not already in the Broadcast Table is
fed to the added handler; a raise aborts the iteration. -/
def handleInitialSync : List (String × List (String × Value)) → SystemState → SystemState × Bool
  | [], st => (st, true)
  | (entityId, rec) :: rest, st =>
    if (alistLookup st.broadcastingEntities entityId).isSome then
      handleInitialSync rest st
    else
      match handleEntityAdded entityId rec st with
      | (st', false) => (st', false)
      | (st', true) => handleInitialSync rest st'

/-- The store's unique-key generator (`push().key`). -/
def pushKey (n : Nat) : String := "fbkey" ++ toString n

/-- The `registerBroadcast` operation, src/index.js lines 130-149. The
entity is recorded in the Broadcast Table under its DOM id before anything
can raise. Reading `.shared` on an absent `firebase-broadcast` component
raises (line 138). The shared pre-check queries the store but branches on
the query object's (undefined) `owner` property, so it never returns early;
on a disconnected engine the query — and likewise the key request at line
144 — dereferences an undefined database and raises. Otherwise a fresh
store key is attached as the component's `id` and an on-disconnect removal
of that key is registered. -/
def registerBroadcast (r : Nat) (st : SystemState) : SystemState × Bool :=
  match alistLookup st.heap r with
  | none => (st, false)
  | some el =>
    let st1 := { st with
      broadcastingEntities := alistInsert st.broadcastingEntities el.domId r }
    match el.broadcast with
    | none => (st1, false)
    | some bd =>
      if bd.shared && !st1.connected then (st1, false)
      else if !st1.connected then (st1, false)
      else
        let key := pushKey st1.nextKey
        let st2 := { st1 with
          nextKey := st1.nextKey + 1
          heap := st1.heap.map (fun p =>
            if p.1 = r then (p.1, { p.2 with broadcast := some { bd with id := key } }) else p)
          disconnectRemovals := st1.disconnectRemovals ++ [key] }
        (st2, true)

/-- Setting the `owner` field of an entity's `firebase-broadcast`
component (src/index.js line 180). -/
def setFbOwner (e : Entity) (v : String) : Entity :=
  match e.broadcast with
  | some b => { e with broadcast := some { b with owner := v } }
  | none => e

/-- Result of the parent check of src/index.js lines 195-199: skip this
entity, or broadcast with this optional `parentId`. -/
inductive ParentCheck where
  | skip
  | link (pid : Option String)

/-- The parent check of src/index.js lines 195-199: a parent entity
without `firebase-broadcast` data makes the tick skip the entity; a parent
with that data contributes its `id` field as the record's `parentId`; a
detached entity or a scene-root child gets no `parentId`. An outer `none`
models a dangling parent reference. -/
def parentIdFor (st : SystemState) (el : Entity) : Option ParentCheck :=
  match el.parent with
  | .ent p =>
    match alistLookup st.heap p with
    | none => none
    | some pe =>
      match pe.broadcast with
      | none => some .skip
      | some pbd => some (.link (some pbd.id))
  | _ => some (.link none)

/-- Reading the listed component values off the entity for the outbound
record (src/index.js lines 202-204); `none` models the raise of the piped
accessor on a missing base component. -/
def buildData (el : Entity) : List String → Option (List (String × Option Value))
  | [] => some []
  | n :: rest =>
    match getComputedAttributeOn el n with
    | none => none
    | some v =>
      match buildData el rest with
      | none => none
      | some l => some ((n, v) :: l)

/-- The per-entity body of the tick loop, src/index.js lines 166-208.
An unclaimed shared entity is claimed for this client (locally and in the
record under construction); an entity shared and owned by another client
is skipped. The once-flag guard at line 189 tests the flag only, since a
JS array — also an empty one — is truthy; when it fires, the once
components are appended and the flag set before the parent check, so a
parent-check skip still consumes the flag. A surviving entity's record is
appended to the outbound stream. -/
def broadcastEntity (entry : String × Nat) (st : SystemState) : SystemState × Bool :=
  match alistLookup st.heap entry.2 with
  | none => (st, false)
  | some el =>
    match el.broadcast with
    | none => (st, false)
    | some bd =>
      let claimed := bd.shared && bd.owner == ""
      let bd1 := if claimed then { bd with owner := st.clientId } else bd
      let st1 := if claimed then heapModify st entry.2 (fun e => setFbOwner e st.clientId) else st
      if bd1.shared && !(bd1.owner == st.clientId) then (st1, true)
      else
        let addOnce := !el.firebaseBroadcastOnce
        let comps := if addOnce then bd1.components ++ bd1.componentsOnce else bd1.components
        let st2 :=
          if addOnce then heapModify st1 entry.2 (fun e => { e with firebaseBroadcastOnce := true })
          else st1
        match parentIdFor st2 el with
        | none => (st2, false)
        | some .skip => (st2, true)
        | some (.link pid) =>
          match buildData el comps with
          | none => (st2, false)
          | some fields =>
            ({ st2 with outbound := st2.outbound ++
               [{ key := entry.1, dataId := el.domId, shared := bd.shared,
                  owner := if claimed then some st.clientId else none,
                  parentId := pid, comps := fields }] }, true)

/-- The tick's iteration over the Broadcast Table entries; a raise in one
entity's body aborts the loop. -/
def tickLoop : List (String × Nat) → SystemState → SystemState × Bool
  | [], st => (st, true)
  | e :: rest, st =>
    match broadcastEntity e st with
    | (st', false) => (st', false)
    | (st', true) => tickLoop rest st'

/-- The `tick` operation, src/index.js lines 154-208. A disconnected
engine returns at once. The interval gate compares elapsed time against
the interval; before the first executed tick the recorded time is
undefined and the JS comparison against NaN is false, so the body runs.
An executed tick records its time and processes every Broadcast Table
entry. -/
def tick (time : Int) (st : SystemState) : SystemState × Bool :=
  if !st.connected then (st, true)
  else
    let gateSkip :=
      match st.time with
      | some t0 => decide (time - t0 < st.interval)
      | none => false
    if gateSkip then (st, true)
    else tickLoop st.broadcastingEntities { st with time := some time }

/-! Helper lemmas about the association-list primitives and the reading of
entity fields through heap updates. -/

/-- Looking a key up right after inserting it finds the inserted value. -/
theorem alistLookup_insert_self {κ α : Type} [DecidableEq κ]
    (l : List (κ × α)) (k : κ) (v : α) :
    alistLookup (alistInsert l k v) k = some v := by
  induction l with
  | nil => simp [alistInsert, alistLookup]
  | cons p rest ih =>
    by_cases h : p.1 = k
    · simp [alistInsert, alistLookup, h]
    · simp [alistInsert, alistLookup, h, ih]

/-- A successful lookup exhibits a binding of the list. -/
theorem alistLookup_mem {κ α : Type} [DecidableEq κ]
    {l : List (κ × α)} {k : κ} {v : α}
    (h : alistLookup l k = some v) : (k, v) ∈ l := by
  induction l with
  | nil => simp [alistLookup] at h
  | cons p rest ih =>
    obtain ⟨a, b⟩ := p
    by_cases hk : a = k
    · rw [alistLookup, if_pos hk] at h
      injection h with hb
      subst hb
      subst hk
      exact List.mem_cons_self _ _
    · rw [alistLookup, if_neg hk] at h
      exact List.mem_cons_of_mem _ (ih h)

/-- Lookup through an update-in-place of one key's value. -/
theorem alistLookup_mapModify {κ α : Type} [DecidableEq κ]
    (l : List (κ × α)) (r k : κ) (f : α → α) :
    alistLookup (l.map (fun p => if p.1 = r then (p.1, f p.2) else p)) k =
      if k = r then (alistLookup l k).map f else alistLookup l k := by
  induction l with
  | nil => by_cases h : k = r <;> simp [alistLookup, h]
  | cons p rest ih =>
    obtain ⟨a, b⟩ := p
    simp only [List.map_cons]
    by_cases hp : a = r
    · subst hp
      have hhead : (if (a, b).1 = a then ((a, b).1, f (a, b).2) else (a, b)) = (a, f b) :=
        if_pos rfl
      rw [hhead]
      by_cases hk : a = k
      · subst hk
        simp [alistLookup, ih]
      · have hk' : ¬ k = a := fun h => hk h.symm
        simp [alistLookup, hk, hk', ih]
    · have hhead : (if (a, b).1 = r then ((a, b).1, f (a, b).2) else (a, b)) = (a, b) :=
        if_neg hp
      rw [hhead]
      by_cases hk : a = k
      · subst hk
        simp [alistLookup, hp]
      · simp [alistLookup, hp, hk, ih]

/-- Lookup in the heap after `heapModify`. -/
theorem alistLookup_heapModify (st : SystemState) (r : Nat) (f : Entity → Entity) (k : Nat) :
    alistLookup (heapModify st r f).heap k =
      if k = r then (alistLookup st.heap k).map f else alistLookup st.heap k := by
  simp [heapModify, alistLookup_mapModify]

/-- The owner recorded in an entity's broadcast component, read off the
heap. -/
def ownerOf (st : SystemState) (r : Nat) : Option String :=
  (alistLookup st.heap r).bind (fun e => e.broadcast.map (fun b => b.owner))

/-- The once-sent flag of an entity, read off the heap. -/
def flagOf (st : SystemState) (r : Nat) : Option Bool :=
  (alistLookup st.heap r).map (fun e => e.firebaseBroadcastOnce)

/-- The component-application loop touches only the heap. -/
theorem applyFields_frame (sk : Bool) (ent : Option Nat)
    (fs : List (String × Value)) (st : SystemState) :
    ((applyFields sk ent fs st).1).entities = st.entities ∧
    ((applyFields sk ent fs st).1).broadcastingEntities = st.broadcastingEntities ∧
    ((applyFields sk ent fs st).1).time = st.time ∧
    ((applyFields sk ent fs st).1).outbound = st.outbound ∧
    ((applyFields sk ent fs st).1).clientId = st.clientId ∧
    ((applyFields sk ent fs st).1).connected = st.connected := by
  induction fs generalizing st with
  | nil => exact ⟨rfl, rfl, rfl, rfl, rfl, rfl⟩
  | cons p rest ih =>
    obtain ⟨name, v⟩ := p
    by_cases h : (name == "parentId" || (sk && name == "firebase-broadcast")) = true
    · have hstep : applyFields sk ent ((name, v) :: rest) st = applyFields sk ent rest st := by
        simp [applyFields, h]
      rw [hstep]
      exact ih st
    · cases ent with
      | none =>
        have hstep : applyFields sk none ((name, v) :: rest) st = (st, false) := by
          simp [applyFields, h]
        rw [hstep]
        exact ⟨rfl, rfl, rfl, rfl, rfl, rfl⟩
      | some r =>
        have hstep : applyFields sk (some r) ((name, v) :: rest) st =
            applyFields sk (some r) rest (heapModify st r (fun el => setAttributeOn el name v)) := by
          simp [applyFields, h]
        rw [hstep]
        exact ih _

/-- Applying fields to an undefined entity leaves the state unchanged and
succeeds exactly when every field is one the loop skips. -/
theorem applyFields_none (sk : Bool) (fs : List (String × Value)) (st : SystemState) :
    (applyFields sk none fs st).1 = st ∧
      ((applyFields sk none fs st).2 = true ↔
        ∀ p ∈ fs, (p.1 == "parentId" || (sk && p.1 == "firebase-broadcast")) = true) := by
  induction fs generalizing st with
  | nil => exact ⟨rfl, by simp [applyFields]⟩
  | cons p rest ih =>
    obtain ⟨name, v⟩ := p
    by_cases h : (name == "parentId" || (sk && name == "firebase-broadcast")) = true
    · have hstep : applyFields sk none ((name, v) :: rest) st = applyFields sk none rest st := by
        simp [applyFields, h]
      rw [hstep]
      refine ⟨(ih st).1, ?_⟩
      rw [(ih st).2]
      constructor
      · intro hall p hp
        rcases List.mem_cons.mp hp with hpe | hpr
        · subst hpe
          exact h
        · exact hall p hpr
      · intro hall p hp
        exact hall p (List.mem_cons_of_mem _ hp)
    · have hstep : applyFields sk none ((name, v) :: rest) st = (st, false) := by
        simp [applyFields, h]
      rw [hstep]
      refine ⟨rfl, ?_⟩
      simp only [List.forall_mem_cons]
      constructor
      · intro hf
        exact (Bool.false_ne_true hf).elim
      · intro hall
        exact absurd hall.1 h

/-- A successfully built outbound data set lists exactly the requested
component names, in order. -/
theorem buildData_keys (el : Entity) (ns : List String) (l : List (String × Option Value))
    (h : buildData el ns = some l) : l.map (fun p => p.1) = ns := by
  induction ns generalizing l with
  | nil =>
    rw [buildData] at h
    injection h with hl
    subst hl
    rfl
  | cons n rest ih =>
    rw [buildData] at h
    cases hg : getComputedAttributeOn el n with
    | none => rw [hg] at h; cases h
    | some v =>
      rw [hg] at h
      cases hb : buildData el rest with
      | none => rw [hb] at h; cases h
      | some l' =>
        rw [hb] at h
        injection h with hl
        subst hl
        simp [ih l' hb]

/-- Result of `ownerOf` after an in-place heap update. -/
theorem ownerOf_heapModify (st : SystemState) (r : Nat) (f : Entity → Entity) (r' : Nat) :
    ownerOf (heapModify st r f) r' =
      if r' = r then
        ((alistLookup st.heap r').map f).bind (fun e => e.broadcast.map (fun b => b.owner))
      else ownerOf st r' := by
  unfold ownerOf
  rw [show (heapModify st r f).heap = st.heap.map (fun p => if p.1 = r then (p.1, f p.2) else p) from rfl,
    alistLookup_mapModify]
  split <;> rfl

/-- Result of `flagOf` after an in-place heap update. -/
theorem flagOf_heapModify (st : SystemState) (r : Nat) (f : Entity → Entity) (r' : Nat) :
    flagOf (heapModify st r f) r' =
      if r' = r then ((alistLookup st.heap r').map f).map (fun e => e.firebaseBroadcastOnce)
      else flagOf st r' := by
  unfold flagOf
  rw [show (heapModify st r f).heap = st.heap.map (fun p => if p.1 = r then (p.1, f p.2) else p) from rfl,
    alistLookup_mapModify]
  split <;> simp

/-- Claiming an owner with the client identity keeps every entity that
already had that owner at that owner. -/
theorem ownerOf_setFbOwner_self (st : SystemState) (r r' : Nat)
    (h : ownerOf st r' = some st.clientId) :
    ownerOf (heapModify st r (fun en => setFbOwner en st.clientId)) r' = some st.clientId := by
  rw [ownerOf_heapModify]
  split
  · unfold ownerOf at h
    cases hl : alistLookup st.heap r' with
    | none => simp [hl] at h
    | some en =>
      simp only [hl, Option.some_bind] at h
      cases hb : en.broadcast with
      | none => simp [hb] at h
      | some b => simp [setFbOwner, hb]
  · exact h

/-- Setting the once-sent flag does not change any recorded owner. -/
theorem ownerOf_setFlag (st : SystemState) (r r' : Nat) :
    ownerOf (heapModify st r (fun en => { en with firebaseBroadcastOnce := true })) r' =
      ownerOf st r' := by
  rw [ownerOf_heapModify]
  split
  · cases hl : alistLookup st.heap r' <;> simp [ownerOf, hl]
  · rfl

/-- Claiming an owner does not change any once-sent flag. -/
theorem flagOf_setFbOwner (st : SystemState) (v : String) (r r' : Nat) :
    flagOf (heapModify st r (fun en => setFbOwner en v)) r' = flagOf st r' := by
  rw [flagOf_heapModify]
  split
  · cases hl : alistLookup st.heap r' with
    | none => simp [flagOf, hl]
    | some en =>
      cases hb : en.broadcast <;> simp [flagOf, hl, setFbOwner, hb]
  · rfl

/-- Setting the once-sent flag keeps every already-set flag set. -/
theorem flagOf_setFlag_true (st : SystemState) (r r' : Nat)
    (h : flagOf st r' = some true) :
    flagOf (heapModify st r (fun en => { en with firebaseBroadcastOnce := true })) r' =
      some true := by
  rw [flagOf_heapModify]
  split
  · unfold flagOf at h
    cases hl : alistLookup st.heap r' with
    | none => simp [hl] at h
    | some en => simp [hl]
  · exact h

/-- The per-entity tick body touches only the heap and the outbound
stream, and only ever appends to the latter. -/
theorem broadcastEntity_frame (e : String × Nat) (st : SystemState) :
    ((broadcastEntity e st).1).entities = st.entities ∧
    ((broadcastEntity e st).1).broadcastingEntities = st.broadcastingEntities ∧
    ((broadcastEntity e st).1).time = st.time ∧
    ((broadcastEntity e st).1).clientId = st.clientId ∧
    ((broadcastEntity e st).1).connected = st.connected ∧
    ((broadcastEntity e st).1).interval = st.interval ∧
    ∃ l, ((broadcastEntity e st).1).outbound = st.outbound ++ l := by
  simp only [broadcastEntity]
  repeat' split
  all_goals first
    | exact ⟨rfl, rfl, rfl, rfl, rfl, rfl, ⟨[], (List.append_nil _).symm⟩⟩
    | exact ⟨rfl, rfl, rfl, rfl, rfl, rfl, ⟨_, rfl⟩⟩

/-- The per-entity tick body keeps every owner already equal to this
client's identity at that identity. -/
theorem broadcastEntity_owner_pres (e : String × Nat) (st : SystemState) (r' : Nat)
    (h : ownerOf st r' = some st.clientId) :
    ownerOf (broadcastEntity e st).1 r' = some st.clientId := by
  simp only [broadcastEntity]
  repeat' split
  all_goals first
    | exact h
    | exact ownerOf_setFbOwner_self st e.2 r' h
    | exact (ownerOf_setFlag st e.2 r').trans h
    | exact (ownerOf_setFlag (heapModify st e.2 (fun en => setFbOwner en st.clientId)) e.2 r').trans
        (ownerOf_setFbOwner_self st e.2 r' h)

/-- The per-entity tick body keeps every set once-sent flag set. -/
theorem broadcastEntity_flag_pres (e : String × Nat) (st : SystemState) (r' : Nat)
    (h : flagOf st r' = some true) :
    flagOf (broadcastEntity e st).1 r' = some true := by
  simp only [broadcastEntity]
  repeat' split
  all_goals first
    | exact h
    | exact flagOf_setFlag_true st e.2 r' h
    | exact (flagOf_setFbOwner st st.clientId e.2 r').trans h
    | exact flagOf_setFlag_true (heapModify st e.2 (fun en => setFbOwner en st.clientId)) e.2 r'
        ((flagOf_setFbOwner st st.clientId e.2 r').trans h)

/-- The tick loop touches only the heap and the outbound stream, appending
to the latter. -/
theorem tickLoop_frame (entries : List (String × Nat)) (st : SystemState) :
    ((tickLoop entries st).1).entities = st.entities ∧
    ((tickLoop entries st).1).broadcastingEntities = st.broadcastingEntities ∧
    ((tickLoop entries st).1).time = st.time ∧
    ((tickLoop entries st).1).clientId = st.clientId ∧
    ((tickLoop entries st).1).connected = st.connected ∧
    ((tickLoop entries st).1).interval = st.interval ∧
    ∃ l, ((tickLoop entries st).1).outbound = st.outbound ++ l := by
  induction entries generalizing st with
  | nil => exact ⟨rfl, rfl, rfl, rfl, rfl, rfl, ⟨[], (List.append_nil _).symm⟩⟩
  | cons e rest ih =>
    rw [tickLoop]
    obtain ⟨h1, h2, h3, h4, h5, h6, l, hl⟩ := broadcastEntity_frame e st
    cases hb : broadcastEntity e st with
    | mk st' ok =>
      rw [hb] at h1 h2 h3 h4 h5 h6 hl
      cases ok with
      | false => exact ⟨h1, h2, h3, h4, h5, h6, ⟨l, hl⟩⟩
      | true =>
        obtain ⟨g1, g2, g3, g4, g5, g6, l', hl'⟩ := ih st'
        exact ⟨g1.trans h1, g2.trans h2, g3.trans h3, g4.trans h4, g5.trans h5, g6.trans h6,
          ⟨l ++ l', by rw [hl', hl, List.append_assoc]⟩⟩

/-- The tick loop keeps every owner already equal to this client's
identity at that identity. -/
theorem tickLoop_owner_pres (entries : List (String × Nat)) (st : SystemState) (r' : Nat)
    (h : ownerOf st r' = some st.clientId) :
    ownerOf (tickLoop entries st).1 r' = some (tickLoop entries st).1.clientId := by
  induction entries generalizing st with
  | nil => exact h
  | cons e rest ih =>
    rw [tickLoop]
    have hpres := broadcastEntity_owner_pres e st r' h
    have hcid := (broadcastEntity_frame e st).2.2.2.1
    cases hb : broadcastEntity e st with
    | mk st' ok =>
      rw [hb] at hpres hcid
      cases ok with
      | false => exact hpres.trans (congrArg some hcid.symm)
      | true => exact ih st' (hpres.trans (congrArg some hcid.symm))

/-- The tick loop keeps every set once-sent flag set. -/
theorem tickLoop_flag_pres (entries : List (String × Nat)) (st : SystemState) (r' : Nat)
    (h : flagOf st r' = some true) :
    flagOf (tickLoop entries st).1 r' = some true := by
  induction entries generalizing st with
  | nil => exact h
  | cons e rest ih =>
    rw [tickLoop]
    have hpres := broadcastEntity_flag_pres e st r' h
    cases hb : broadcastEntity e st with
    | mk st' ok =>
      rw [hb] at hpres
      cases ok with
      | false => exact hpres
      | true => exact ih st' hpres

/-! Concrete states used by the witnesses and counterexamples. -/

/-- A concrete shared broadcasting entity, still unowned. -/
def exEntity : Entity :=
  { domId := "box"
    attrs := [("position", Value.vstr "0 0 0"), ("scale", Value.vstr "1 1 1")]
    broadcast := some { id := "k0", components := ["position"], componentsOnce := [],
                        shared := true, owner := "" }
    firebaseBroadcastOnce := false
    parent := .scene }

/-- A connected system broadcasting `exEntity`. -/
def exState : SystemState :=
  { heap := [(0, exEntity)], nextRef := 1, entities := [],
    broadcastingEntities := [("box", 0)], clientId := "c0", connected := true,
    channel := "default", interval := 10, time := none, nextKey := 0,
    outbound := [], disconnectRemovals := [] }

/-- The connected system right after initialization, before any entity. -/
def exStateEmpty : SystemState :=
  initSystem none (some { channel := none, interval := none }) "c0"

/-! Claim C2. -/

/-- C2: for every remote identifier present in the Broadcast Table,
processing a "changed" event for that identifier mutates no local entity
state — the handler returns before applying any field (src/index.js line
108). -/
theorem changed_skips_broadcasting (id : String) (components : List (String × Value))
    (st : SystemState) (r : Nat)
    (h : alistLookup st.broadcastingEntities id = some r) :
    handleEntityChanged id components st = (st, true) := by
  rw [handleEntityChanged]
  simp [h]

/-- Witness for C2 at a concrete broadcasting entity. -/
theorem changed_skips_broadcasting_witness :
    handleEntityChanged "box" [("position", Value.vstr "5 5 5")] exState = (exState, true) :=
  changed_skips_broadcasting "box" [("position", Value.vstr "5 5 5")] exState 0 rfl

/-! Claim C10. -/

/-- C10: an "entity added" event for an unknown identifier reads the
`shared` flag of the record's `firebase-broadcast` field before any
existence check of that field (src/index.js line 82), so a record lacking
that field cannot be processed: the access raises. -/
theorem added_requires_broadcast_meta (id : String) (data : List (String × Value))
    (st : SystemState)
    (he : truthyRef (alistLookup st.entities id) = false)
    (hb : alistLookup st.broadcastingEntities id = none)
    (hfb : alistLookup data "firebase-broadcast" = none) :
    handleEntityAdded id data st = (st, false) := by
  rw [handleEntityAdded]
  simp [he, hb, hfb]

/-- Witness for C10: an added event whose record carries only a position
raises on the connected empty system. -/
theorem added_requires_broadcast_meta_witness :
    handleEntityAdded "ghost" [("position", Value.vstr "1 2 3")] exStateEmpty =
      (exStateEmpty, false) :=
  added_requires_broadcast_meta "ghost" [("position", Value.vstr "1 2 3")] exStateEmpty
    rfl rfl rfl

/-! Claim C8. -/

/-- C8: the tick's broadcast body executes only when the elapsed time
since the last executed tick reaches the interval: an earlier tick is a
complete no-op leaving even the recorded last-tick time unchanged, and an
executed tick records its own timestamp (src/index.js lines 162-164), so
at most one broadcast pass occurs per interval duration. -/
theorem tick_interval_gate (st : SystemState) (t t0 : Int) :
    (st.time = some t0 → t - t0 < st.interval → tick t st = (st, true)) ∧
    (st.connected = true →
      (st.time = none ∨ (st.time = some t0 ∧ st.interval ≤ t - t0)) →
      ((tick t st).1).time = some t) := by
  constructor
  · intro ht hlt
    by_cases hc : st.connected
    · simp [tick, hc, ht, hlt]
    · simp [tick, hc]
  · intro hc hor
    have hrun : tick t st = tickLoop st.broadcastingEntities { st with time := some t } := by
      rcases hor with hnone | ⟨ht, hge⟩
      · simp [tick, hc, hnone]
      · simp [tick, hc, ht, not_lt.mpr hge]
    rw [hrun]
    exact (tickLoop_frame st.broadcastingEntities { st with time := some t }).2.2.1

/-- Witness for C8: a tick 5 units after an executed tick with interval 10
is a no-op, and a first tick on the fresh system records its time. -/
theorem tick_interval_gate_witness :
    tick 5 { exState with time := some 0 } = ({ exState with time := some 0 }, true) ∧
    ((tick 100 exState).1).time = some 100 :=
  ⟨(tick_interval_gate { exState with time := some 0 } 5 0).1 rfl (by decide),
   (tick_interval_gate exState 100 0).2 rfl (Or.inl rfl)⟩

/-! Claim C7. -/

/-- Counterexample for C7: processing a "changed" event carrying a
position field for an identifier in neither table raises (the handler
never checks Replica Table membership, src/index.js lines 110-114),
contradicting the claim that the handler no-ops without raising an
error. -/
theorem changed_unknown_id_raises :
    alistLookup exStateEmpty.entities "e1" = none ∧
    alistLookup exStateEmpty.broadcastingEntities "e1" = none ∧
    (handleEntityChanged "e1" [("position", Value.vstr "0 0 0")] exStateEmpty).2 = false :=
  ⟨rfl, rfl, rfl⟩

/-- C7 amended: a "changed" event for an identifier in neither table never
mutates local state, but only the Broadcast Table membership is checked:
the handler succeeds exactly when every delivered field is named
`parentId` (all skipped); any other field is applied to a missing handle
and raises. -/
theorem changed_unknown_id_behavior (id : String) (comps : List (String × Value))
    (st : SystemState)
    (hb : alistLookup st.broadcastingEntities id = none)
    (he : alistLookup st.entities id = none ∨ alistLookup st.entities id = some none) :
    (handleEntityChanged id comps st).1 = st ∧
      ((handleEntityChanged id comps st).2 = true ↔ ∀ p ∈ comps, p.1 = "parentId") := by
  have hent : (match alistLookup st.entities id with
      | some (some r) => some r
      | _ => none : Option Nat) = none := by
    rcases he with h | h <;> rw [h]
  rw [handleEntityChanged]
  simp only [hb, Option.isSome_none, Bool.false_eq_true, if_false, hent]
  obtain ⟨h1, h2⟩ := applyFields_none false comps st
  refine ⟨h1, h2.trans ?_⟩
  constructor
  · intro hall p hp
    have := hall p hp
    simp at this
    exact this
  · intro hall p hp
    simp [hall p hp]

/-- Witness for C7 amended: an all-`parentId` payload for an unknown
identifier leaves the empty system unchanged and succeeds. -/
theorem changed_unknown_id_behavior_witness :
    (handleEntityChanged "e2" [("parentId", Value.vstr "k9")] exStateEmpty).1 = exStateEmpty ∧
      ((handleEntityChanged "e2" [("parentId", Value.vstr "k9")] exStateEmpty).2 = true ↔
        ∀ p ∈ [("parentId", Value.vstr "k9")], p.1 = "parentId") :=
  changed_unknown_id_behavior "e2" [("parentId", Value.vstr "k9")] exStateEmpty rfl (Or.inl rfl)

/-! Claim C9. -/

/-- A loose entity in the scene of an engine initialized without
configuration. -/
def exInertEntity : Entity :=
  { domId := "box", attrs := [], broadcast := some defaultBroadcastData,
    firebaseBroadcastOnce := false, parent := .scene }

/-- The inert engine (initialization found no configuration) with one
scene entity. -/
def exInertState : SystemState :=
  { initSystem none none "c0" with heap := [(0, exInertEntity)], nextRef := 1 }

/-- Counterexample for C9: on the inert engine, `registerBroadcast` is not
a no-op — it raises (dereferencing the absent database handle,
src/index.js lines 139/144) and it mutates the Broadcast Table first
(line 135). -/
theorem register_inert_raises :
    exInertState.connected = false ∧
    (registerBroadcast 0 exInertState).2 = false ∧
    (registerBroadcast 0 exInertState).1.broadcastingEntities ≠
      exInertState.broadcastingEntities := by
  refine ⟨rfl, rfl, ?_⟩
  decide

/-- C9 amended: on an engine whose initialization found no usable
configuration, tick is a guarded no-op (src/index.js line 155), but
broadcast registration is not: it records the entity in the Broadcast
Table and then raises on the absent connection. -/
theorem inert_engine_behavior (st : SystemState) (r : Nat) (el : Entity) (t : Int)
    (hconn : st.connected = false)
    (hheap : alistLookup st.heap r = some el) :
    tick t st = (st, true) ∧
    (registerBroadcast r st).2 = false ∧
    (registerBroadcast r st).1.broadcastingEntities =
      alistInsert st.broadcastingEntities el.domId r := by
  have hreg : registerBroadcast r st =
      ({ st with broadcastingEntities := alistInsert st.broadcastingEntities el.domId r },
        false) := by
    rw [registerBroadcast]
    simp only [hheap]
    cases hb : el.broadcast with
    | none => rfl
    | some bd =>
      by_cases hs : bd.shared <;> simp [hconn, hs]
  exact ⟨by simp [tick, hconn], by rw [hreg], by rw [hreg]⟩

/-- Witness for C9 amended at the inert engine. -/
theorem inert_engine_behavior_witness :
    tick 0 exInertState = (exInertState, true) ∧
    (registerBroadcast 0 exInertState).2 = false ∧
    (registerBroadcast 0 exInertState).1.broadcastingEntities =
      alistInsert exInertState.broadcastingEntities "box" 0 :=
  inert_engine_behavior exInertState 0 exInertEntity 0 rfl rfl

/-! Claim C4. -/

/-- The component-application loop is invariant under dropping exactly the
fields its skip test rejects. -/
theorem applyFields_filter (sk : Bool) (ent : Option Nat)
    (fs : List (String × Value)) (st : SystemState) :
    applyFields sk ent fs st =
      applyFields sk ent
        (fs.filter (fun p => !(p.1 == "parentId" || (sk && p.1 == "firebase-broadcast")))) st := by
  induction fs generalizing st with
  | nil => rfl
  | cons p rest ih =>
    obtain ⟨name, v⟩ := p
    by_cases h : (name == "parentId" || (sk && name == "firebase-broadcast")) = true
    · have hstep : applyFields sk ent ((name, v) :: rest) st = applyFields sk ent rest st := by
        simp [applyFields, h]
      have hfilter : ((name, v) :: rest).filter
          (fun p => !(p.1 == "parentId" || (sk && p.1 == "firebase-broadcast"))) =
          rest.filter (fun p => !(p.1 == "parentId" || (sk && p.1 == "firebase-broadcast"))) :=
        List.filter_cons_of_neg (by simp [h])
      rw [hstep, hfilter]
      exact ih st
    · rw [Bool.not_eq_true] at h
      have hfilter : ((name, v) :: rest).filter
          (fun p => !(p.1 == "parentId" || (sk && p.1 == "firebase-broadcast"))) =
          (name, v) :: rest.filter
            (fun p => !(p.1 == "parentId" || (sk && p.1 == "firebase-broadcast"))) :=
        List.filter_cons_of_pos (by simp [h])
      rw [hfilter]
      cases ent with
      | none =>
        have h1 : applyFields sk none ((name, v) :: rest) st = (st, false) := by
          simp [applyFields, h]
        have h2 : applyFields sk none ((name, v) ::
            rest.filter (fun p => !(p.1 == "parentId" || (sk && p.1 == "firebase-broadcast")))) st =
            (st, false) := by
          simp [applyFields, h]
        rw [h1, h2]
      | some r =>
        have h1 : applyFields sk (some r) ((name, v) :: rest) st =
            applyFields sk (some r) rest (heapModify st r (fun el => setAttributeOn el name v)) := by
          simp [applyFields, h]
        have h2 : applyFields sk (some r) ((name, v) ::
            rest.filter (fun p => !(p.1 == "parentId" || (sk && p.1 == "firebase-broadcast")))) st =
            applyFields sk (some r)
              (rest.filter (fun p => !(p.1 == "parentId" || (sk && p.1 == "firebase-broadcast"))))
              (heapModify st r (fun el => setAttributeOn el name v)) := by
          simp [applyFields, h]
        rw [h1, h2]
        exact ih _

/-- The Replica Table entity targeted by a changed event, before and after
the handler, read as its broadcast component. -/
def broadcastOfRef (st : SystemState) (r : Nat) : Option BroadcastData :=
  (alistLookup st.heap r).bind (fun e => e.broadcast)

/-- A replica entity whose broadcast component carries a non-default id
and component list. -/
def exC4Entity : Entity :=
  { domId := "rep"
    attrs := []
    broadcast := some { id := "k1", components := ["position"], componentsOnce := [],
                        shared := false, owner := "" }
    firebaseBroadcastOnce := false
    parent := .scene }

/-- A connected system holding `exC4Entity` as the replica of remote
identifier `e1`. -/
def exC4State : SystemState :=
  { exStateEmpty with heap := [(0, exC4Entity)], nextRef := 1, entities := [("e1", some 0)] }

/-- The changed-event payload carrying a `firebase-broadcast` field. -/
def exC4Fields : List (String × Value) :=
  [("firebase-broadcast", Value.vobj [("owner", Value.vstr "intruder")])]

/-- Counterexample for C4: the changed handler does apply a
`firebase-broadcast` field as a component update (src/index.js lines
111-114 skip only `parentId`) — the replica entity's broadcast component
is replaced (and wiped to schema defaults except the delivered fields). -/
theorem changed_applies_broadcast_meta :
    broadcastOfRef exC4State 0 =
      some { id := "k1", components := ["position"], componentsOnce := [],
             shared := false, owner := "" } ∧
    (handleEntityChanged "e1" exC4Fields exC4State).2 = true ∧
    broadcastOfRef (handleEntityChanged "e1" exC4Fields exC4State).1 0 =
      some { id := "", components := ["position", "rotation"], componentsOnce := [],
             shared := false, owner := "intruder" } ∧
    ({ id := "", components := ["position", "rotation"], componentsOnce := [],
       shared := false, owner := "intruder" } : BroadcastData) ≠
      { id := "k1", components := ["position"], componentsOnce := [],
        shared := false, owner := "" } := by
  refine ⟨rfl, rfl, rfl, ?_⟩
  decide

/-- C4 amended: the added handler's field application ignores both
reserved fields `firebase-broadcast` and `parentId`, and the changed
handler strips only `parentId` (a delivered `firebase-broadcast` field is
applied as a component update there). -/
theorem reserved_field_stripping (ent : Option Nat) (fs : List (String × Value))
    (id : String) (comps : List (String × Value)) (st : SystemState) :
    applyFields true ent fs st =
      applyFields true ent
        (fs.filter (fun p => !(p.1 == "firebase-broadcast" || p.1 == "parentId"))) st ∧
    handleEntityChanged id comps st =
      handleEntityChanged id (comps.filter (fun p => !(p.1 == "parentId"))) st := by
  constructor
  · rw [applyFields_filter true ent fs st]
    have : fs.filter (fun p => !(p.1 == "parentId" || (true && p.1 == "firebase-broadcast"))) =
        fs.filter (fun p => !(p.1 == "firebase-broadcast" || p.1 == "parentId")) := by
      apply List.filter_congr
      intro x _
      cases hx : x.1 == "firebase-broadcast" <;> cases hy : x.1 == "parentId" <;>
        simp [hx, hy]
    rw [this]
  · rw [handleEntityChanged, handleEntityChanged]
    have : comps.filter (fun p => !(p.1 == "parentId")) =
        comps.filter (fun p => !(p.1 == "parentId" || (false && p.1 == "firebase-broadcast"))) := by
      apply List.filter_congr
      intro x _
      cases hy : x.1 == "parentId" <;> simp [hy]
    rw [this, ← applyFields_filter]

/-- Witness (non-vacuity) for C4 amended on a concrete mixed payload. -/
theorem reserved_field_stripping_witness :
    applyFields true (some 0)
        [("firebase-broadcast", Value.vobj []), ("parentId", Value.vstr "k9")] exC4State =
      applyFields true (some 0)
        ([("firebase-broadcast", Value.vobj []), ("parentId", Value.vstr "k9")].filter
          (fun p => !(p.1 == "firebase-broadcast" || p.1 == "parentId"))) exC4State ∧
    handleEntityChanged "e1" [("parentId", Value.vstr "k9")] exC4State =
      handleEntityChanged "e1"
        ([("parentId", Value.vstr "k9")].filter (fun p => !(p.1 == "parentId"))) exC4State :=
  reserved_field_stripping (some 0)
    [("firebase-broadcast", Value.vobj []), ("parentId", Value.vstr "k9")]
    "e1" [("parentId", Value.vstr "k9")] exC4State

/-- The tail of the per-entity tick body after the ownership steps: the
parent check, the data build and the outbound update (src/index.js lines
194-207), abstracted over the already-computed record meta fields, the
component list and the intermediate state. -/
def broadcastTail (id : String) (own : Option String) (sh : Bool) (el : Entity)
    (comps : List String) (st2 : SystemState) : SystemState × Bool :=
  match parentIdFor st2 el with
  | none => (st2, false)
  | some .skip => (st2, true)
  | some (.link pid) =>
    match buildData el comps with
    | none => (st2, false)
    | some fields =>
      ({ st2 with outbound := st2.outbound ++
         [{ key := id, dataId := el.domId, shared := sh, owner := own,
            parentId := pid, comps := fields }] }, true)

/-- Reduction of the per-entity tick body when the ownership gate passes
(the entity is unshared, unowned, or owned by this client). -/
theorem broadcastEntity_pass_eq (id : String) (r : Nat) (st : SystemState)
    (el : Entity) (bd : BroadcastData)
    (hheap : alistLookup st.heap r = some el)
    (hbd : el.broadcast = some bd)
    (hgate : bd.shared = false ∨ bd.owner = "" ∨ bd.owner = st.clientId) :
    broadcastEntity (id, r) st =
      broadcastTail id
        (if bd.shared && bd.owner == "" then some st.clientId else none)
        bd.shared el
        (if !el.firebaseBroadcastOnce then bd.components ++ bd.componentsOnce
         else bd.components)
        (if !el.firebaseBroadcastOnce then
           heapModify
             (if bd.shared && bd.owner == "" then
               heapModify st r (fun e => setFbOwner e st.clientId)
             else st)
             r (fun e => { e with firebaseBroadcastOnce := true })
         else
           if bd.shared && bd.owner == "" then
             heapModify st r (fun e => setFbOwner e st.clientId)
           else st) := by
  rw [broadcastEntity]
  simp only [hheap, hbd]
  by_cases hs : bd.shared
  · by_cases ho : bd.owner == ""
    · simp [broadcastTail, hs, ho]
    · have hoc : bd.owner = st.clientId := by
        rcases hgate with h | h | h
        · rw [hs] at h
          cases h
        · rw [h] at ho
          simp at ho
        · exact h
      rw [hoc] at ho
      simp [broadcastTail, hs, hoc, ho]
  · simp [broadcastTail, hs]

/-! Claim C6. -/

/-- Behavior of the tick tail with respect to the parent check, for any
intermediate state whose outbound stream matches the starting one and in
which the parent resolves. -/
theorem broadcastTail_parent_behavior (id : String) (own : Option String) (sh : Bool)
    (el : Entity) (comps : List String) (st st2 : SystemState) (p : Nat) (pe : Entity)
    (hpar : el.parent = .ent p)
    (houtb : st2.outbound = st.outbound)
    (hlook : alistLookup st2.heap p = some pe) :
    (pe.broadcast = none →
      ((broadcastTail id own sh el comps st2).1).outbound = st.outbound ∧
      (broadcastTail id own sh el comps st2).2 = true) ∧
    (∀ pbd, pe.broadcast = some pbd →
      ∀ rec ∈ ((broadcastTail id own sh el comps st2).1).outbound,
        rec ∈ st.outbound ∨ rec.parentId = some pbd.id) := by
  constructor
  · intro hnone
    have hpf : parentIdFor st2 el = some .skip := by
      simp [parentIdFor, hpar, hlook, hnone]
    rw [broadcastTail, hpf]
    exact ⟨houtb, rfl⟩
  · intro pbd hsome rec hrec
    have hpf : parentIdFor st2 el = some (.link (some pbd.id)) := by
      simp [parentIdFor, hpar, hlook, hsome]
    rw [broadcastTail, hpf] at hrec
    cases hb2 : buildData el comps with
    | none =>
      rw [hb2] at hrec
      exact Or.inl (houtb ▸ hrec)
    | some fields =>
      rw [hb2] at hrec
      simp only [List.mem_append, List.mem_singleton] at hrec
      rcases hrec with hrec | hrec
      · exact Or.inl (houtb ▸ hrec)
      · subst hrec
        exact Or.inr rfl

/-- C6 amended: the parent gate of the tick tests only whether the local
parent carries `firebase-broadcast` data at all (src/index.js line 197):
with no such data the tick issues no outbound update for the entity, and
with such data the outbound record's `parentId` is set to its `id` field —
even when that id is still empty. -/
theorem parent_gate_checks_component_presence (id : String) (r p : Nat) (st : SystemState)
    (el pe : Entity) (bd : BroadcastData)
    (hheap : alistLookup st.heap r = some el)
    (hbd : el.broadcast = some bd)
    (hgate : bd.shared = false ∨ bd.owner = "" ∨ bd.owner = st.clientId)
    (hpar : el.parent = .ent p)
    (hne : p ≠ r)
    (hpe : alistLookup st.heap p = some pe) :
    (pe.broadcast = none →
      ((broadcastEntity (id, r) st).1).outbound = st.outbound ∧
      (broadcastEntity (id, r) st).2 = true) ∧
    (∀ pbd, pe.broadcast = some pbd →
      ∀ rec ∈ ((broadcastEntity (id, r) st).1).outbound,
        rec ∈ st.outbound ∨ rec.parentId = some pbd.id) := by
  rw [broadcastEntity_pass_eq id r st el bd hheap hbd hgate]
  apply broadcastTail_parent_behavior _ _ _ _ _ st _ p pe hpar
  · by_cases hcl : (bd.shared && bd.owner == "") = true <;>
      by_cases hfo : (!el.firebaseBroadcastOnce) = true <;>
        simp [hcl, hfo, heapModify]
  · by_cases hcl : (bd.shared && bd.owner == "") = true <;>
      by_cases hfo : (!el.firebaseBroadcastOnce) = true <;>
        simp [hcl, hfo, alistLookup_heapModify, hne, hpe]

/-- The parent entity for the C6 scenario: it carries `firebase-broadcast`
data whose id was never assigned (empty). -/
def exC6Parent : Entity :=
  { domId := "par"
    attrs := []
    broadcast := some { id := "", components := [], componentsOnce := [],
                        shared := false, owner := "" }
    firebaseBroadcastOnce := false
    parent := .scene }

/-- The broadcast configuration of the C6 child entity. -/
def exC6ChildBd : BroadcastData :=
  { id := "kc", components := [], componentsOnce := [], shared := false, owner := "" }

/-- The C6 child entity, broadcasting under the parent with the empty
id. -/
def exC6Child : Entity :=
  { domId := "child", attrs := [], broadcast := some exC6ChildBd,
    firebaseBroadcastOnce := false, parent := .ent 1 }

/-- A connected system broadcasting the C6 child. -/
def exC6State : SystemState :=
  { heap := [(0, exC6Child), (1, exC6Parent)], nextRef := 2, entities := [],
    broadcastingEntities := [("child", 0)], clientId := "c0", connected := true,
    channel := "default", interval := 10, time := none, nextKey := 0,
    outbound := [], disconnectRemovals := [] }

/-- Counterexample for C6: the child's parent has no resolved broadcast id
(its id field is empty), yet the tick does issue an outbound update for
the child, with `parentId` set to the empty string — the gate at
src/index.js line 197 tests component presence, not id resolution. -/
theorem parent_empty_id_still_broadcasts :
    (broadcastOfRef exC6State 1).map (fun b => b.id) = some "" ∧
    ((tick 100 exC6State).1).outbound =
      [{ key := "child", dataId := "child", shared := false, owner := none,
         parentId := some "", comps := [] }] :=
  ⟨rfl, rfl⟩

/-- Witness for C6 amended at the concrete parent-with-empty-id scene. -/
theorem parent_gate_checks_component_presence_witness :
    alistLookup exC6State.heap 0 = some exC6Child ∧
    exC6Child.broadcast = some exC6ChildBd ∧
    (∀ pbd, exC6Parent.broadcast = some pbd →
      ∀ rec ∈ ((broadcastEntity ("child", 0) exC6State).1).outbound,
        rec ∈ exC6State.outbound ∨ rec.parentId = some pbd.id) :=
  ⟨rfl, rfl,
    (parent_gate_checks_component_presence "child" 0 1 exC6State exC6Child exC6Parent
      exC6ChildBd rfl rfl (Or.inl rfl) rfl (by decide) rfl).2⟩

/-! Claim C5. -/

/-- The tick tail never touches the heap. -/
theorem broadcastTail_heap (id : String) (own : Option String) (sh : Bool)
    (el : Entity) (comps : List String) (st2 : SystemState) :
    ((broadcastTail id own sh el comps st2).1).heap = st2.heap := by
  simp only [broadcastTail]
  repeat' split
  all_goals rfl

/-- Every record the tick tail adds to the outbound stream carries the
given owner meta field and exactly the given component names. -/
theorem broadcastTail_records (id : String) (own : Option String) (sh : Bool)
    (el : Entity) (comps : List String) (st2 : SystemState) :
    ∀ rec ∈ ((broadcastTail id own sh el comps st2).1).outbound,
      rec ∈ st2.outbound ∨
        (rec.owner = own ∧ rec.comps.map (fun q => q.1) = comps) := by
  intro rec hrec
  rw [broadcastTail] at hrec
  cases hpf : parentIdFor st2 el with
  | none =>
    rw [hpf] at hrec
    exact Or.inl hrec
  | some pc =>
    cases pc with
    | skip =>
      rw [hpf] at hrec
      exact Or.inl hrec
    | link pid =>
      rw [hpf] at hrec
      cases hb2 : buildData el comps with
      | none =>
        rw [hb2] at hrec
        exact Or.inl hrec
      | some fields =>
        rw [hb2] at hrec
        simp only [List.mem_append, List.mem_singleton] at hrec
        rcases hrec with h | h
        · exact Or.inl h
        · subst h
          exact Or.inr ⟨rfl, buildData_keys el comps fields hb2⟩

/-- The broadcast configuration of the C5 child: one per-tick component
and one once-only component. -/
def exC5ChildBd : BroadcastData :=
  { id := "k5", components := ["position"], componentsOnce := ["scale"],
    shared := false, owner := "" }

/-- The C5 parent entity, carrying no broadcast data yet. -/
def exC5Parent : Entity :=
  { domId := "p5", attrs := [], broadcast := none,
    firebaseBroadcastOnce := false, parent := .scene }

/-- The C5 child entity with a once-only `scale` component, parented under
the not-yet-broadcasting parent. -/
def exC5Child : Entity :=
  { domId := "c5"
    attrs := [("position", Value.vstr "0 0 0"), ("scale", Value.vstr "1 1 1")]
    broadcast := some exC5ChildBd
    firebaseBroadcastOnce := false
    parent := .ent 1 }

/-- A connected system broadcasting the C5 child. -/
def exC5State : SystemState :=
  { heap := [(0, exC5Child), (1, exC5Parent)], nextRef := 2, entities := [],
    broadcastingEntities := [("c5", 0)], clientId := "c0", connected := true,
    channel := "default", interval := 10, time := none, nextKey := 0,
    outbound := [], disconnectRemovals := [] }

/-- The environment attaching `firebase-broadcast` data to the C5 parent
between ticks (through the source's own attribute accessor). -/
def exC5Attach (st : SystemState) : SystemState :=
  heapModify st 1 (fun e => setAttributeOn e "firebase-broadcast"
    (Value.vobj [("id", Value.vstr "kp")]))

/-- Counterexample for C5: the child's first gate-passing tick consumes
the once flag (src/index.js line 191 runs before the parent check at line
197) but is skipped by the parent gate, so it issues no record; after the
parent acquires broadcast data, the next tick broadcasts without the
once-only `scale` component — `scale` appears in zero outbound records,
not exactly one. -/
theorem once_components_can_vanish :
    exC5ChildBd.componentsOnce = ["scale"] ∧
    ((tick 100 exC5State).1).outbound = [] ∧
    flagOf (tick 100 exC5State).1 0 = some true ∧
    ((tick 200 (exC5Attach (tick 100 exC5State).1)).1).outbound =
      [{ key := "c5", dataId := "c5", shared := false, owner := none,
         parentId := some "kp", comps := [("position", some (Value.vstr "0 0 0"))] }] :=
  ⟨rfl, rfl, rfl, rfl⟩

/-- C5 amended: the once flag is consumed on the first tick that passes
the ownership gate, whether or not the parent gate then skips the entity;
once the flag is set, ticks keep it set and every outbound record built
for the entity carries exactly the per-tick components list — so the
once-only components appear in at most one outbound record over the
entity's lifetime, and in none when the flag-consuming tick was skipped by
the parent gate. -/
theorem once_components_at_most_once (st : SystemState) (t : Int) (id : String) (r : Nat)
    (el : Entity) (bd : BroadcastData)
    (hheap : alistLookup st.heap r = some el)
    (hbd : el.broadcast = some bd)
    (hgate : bd.shared = false ∨ bd.owner = "" ∨ bd.owner = st.clientId) :
    (flagOf st r = some true → flagOf (tick t st).1 r = some true) ∧
    (el.firebaseBroadcastOnce = true →
      ∀ rec ∈ ((broadcastEntity (id, r) st).1).outbound,
        rec ∈ st.outbound ∨ rec.comps.map (fun q => q.1) = bd.components) ∧
    flagOf (broadcastEntity (id, r) st).1 r = some true := by
  refine ⟨?_, ?_, ?_⟩
  · intro hflag
    by_cases hc : st.connected
    · cases hst : st.time with
      | none =>
        have hrun : tick t st = tickLoop st.broadcastingEntities { st with time := some t } := by
          simp [tick, hc, hst]
        rw [hrun]
        exact tickLoop_flag_pres _ _ _ hflag
      | some t0 =>
        by_cases hlt : t - t0 < st.interval
        · have hrun : tick t st = (st, true) := by
            simp [tick, hc, hst, hlt]
          rw [hrun]
          exact hflag
        · have hrun : tick t st = tickLoop st.broadcastingEntities { st with time := some t } := by
            simp [tick, hc, hst, hlt]
          rw [hrun]
          exact tickLoop_flag_pres _ _ _ hflag
    · have hrun : tick t st = (st, true) := by
        simp [tick, hc]
      rw [hrun]
      exact hflag
  · intro hfo rec hrec
    rw [broadcastEntity_pass_eq id r st el bd hheap hbd hgate] at hrec
    simp only [hfo, Bool.not_true] at hrec
    by_cases hcl : (bd.shared && bd.owner == "") = true
    · simp only [hcl, if_true, if_false, Bool.false_eq_true] at hrec
      rcases broadcastTail_records _ _ _ _ _ _ rec hrec with h | h
      · exact Or.inl h
      · exact Or.inr h.2
    · simp only [hcl, if_true, if_false, Bool.false_eq_true] at hrec
      rcases broadcastTail_records _ _ _ _ _ _ rec hrec with h | h
      · exact Or.inl h
      · exact Or.inr h.2
  · rw [broadcastEntity_pass_eq id r st el bd hheap hbd hgate]
    have hh := broadcastTail_heap id
      (if bd.shared && bd.owner == "" then some st.clientId else none) bd.shared el
      (if !el.firebaseBroadcastOnce then bd.components ++ bd.componentsOnce
       else bd.components)
      (if !el.firebaseBroadcastOnce then
         heapModify
           (if bd.shared && bd.owner == "" then
             heapModify st r (fun e => setFbOwner e st.clientId)
           else st)
           r (fun e => { e with firebaseBroadcastOnce := true })
       else
         if bd.shared && bd.owner == "" then
           heapModify st r (fun e => setFbOwner e st.clientId)
         else st)
    unfold flagOf
    rw [hh]
    by_cases hfo : el.firebaseBroadcastOnce = true <;>
      by_cases hcl : (bd.shared && bd.owner == "") = true <;>
        simp [hfo, hcl, alistLookup_heapModify, hheap, setFbOwner, hbd]

/-- The C5 child after its once flag was consumed. -/
def exC5FlaggedChild : Entity :=
  { exC5Child with firebaseBroadcastOnce := true }

/-- The C5 system with the child's once flag already set. -/
def exC5StateFlagged : SystemState :=
  { exC5State with heap := [(0, exC5FlaggedChild), (1, exC5Parent)] }

/-- Witness for C5 amended at the flagged child. -/
theorem once_components_at_most_once_witness :
    (flagOf exC5StateFlagged 0 = some true → flagOf (tick 200 exC5StateFlagged).1 0 = some true) ∧
    (exC5FlaggedChild.firebaseBroadcastOnce = true →
      ∀ rec ∈ ((broadcastEntity ("c5", 0) exC5StateFlagged).1).outbound,
        rec ∈ exC5StateFlagged.outbound ∨
          rec.comps.map (fun q => q.1) = exC5ChildBd.components) ∧
    flagOf (broadcastEntity ("c5", 0) exC5StateFlagged).1 0 = some true :=
  once_components_at_most_once exC5StateFlagged 200 "c5" 0 exC5FlaggedChild exC5ChildBd
    rfl rfl (Or.inl rfl)

/-! Claim C1. -/

/-- C1: per-entity ownership discipline of the tick (src/index.js lines
178-186): an unowned shared entity is claimed — `owner` becomes this
client's identity locally, and any record the body issues carries that
owner; a shared entity owned by another client is skipped without any
state change or outbound update; and a tick never moves an owner already
equal to this client's identity away from it. -/
theorem tick_shared_ownership (st : SystemState) (id : String) (r : Nat)
    (el : Entity) (bd : BroadcastData) (t : Int)
    (hheap : alistLookup st.heap r = some el)
    (hbd : el.broadcast = some bd) :
    (bd.shared = true → bd.owner = "" →
      ownerOf (broadcastEntity (id, r) st).1 r = some st.clientId ∧
      ∀ rec ∈ ((broadcastEntity (id, r) st).1).outbound,
        rec ∈ st.outbound ∨ rec.owner = some st.clientId) ∧
    (bd.shared = true → bd.owner ≠ "" → bd.owner ≠ st.clientId →
      broadcastEntity (id, r) st = (st, true)) ∧
    (ownerOf st r = some st.clientId → ownerOf (tick t st).1 r = some st.clientId) := by
  refine ⟨?_, ?_, ?_⟩
  · intro hs ho
    have hgate : bd.shared = false ∨ bd.owner = "" ∨ bd.owner = st.clientId :=
      Or.inr (Or.inl ho)
    have hcl : (bd.shared && bd.owner == "") = true := by
      rw [hs, ho]
      rfl
    rw [broadcastEntity_pass_eq id r st el bd hheap hbd hgate]
    have h1 : ownerOf (heapModify st r (fun e => setFbOwner e st.clientId)) r =
        some st.clientId := by
      rw [ownerOf_heapModify]
      simp [hheap, setFbOwner, hbd]
    constructor
    · unfold ownerOf
      rw [broadcastTail_heap]
      by_cases hfo : (!el.firebaseBroadcastOnce) = true
      · simp only [hfo, if_true, hcl]
        exact (ownerOf_setFlag (heapModify st r (fun e => setFbOwner e st.clientId)) r r).trans h1
      · simp only [hfo, if_false, hcl, if_true, Bool.false_eq_true]
        exact h1
    · intro rec hrec
      rcases broadcastTail_records _ _ _ _ _ _ rec hrec with h | h
      · left
        have : ((if (!el.firebaseBroadcastOnce) = true then
              heapModify
                (if (bd.shared && bd.owner == "") = true then
                  heapModify st r (fun e => setFbOwner e st.clientId)
                else st)
                r (fun e => { e with firebaseBroadcastOnce := true })
            else
              if (bd.shared && bd.owner == "") = true then
                heapModify st r (fun e => setFbOwner e st.clientId)
              else st) : SystemState).outbound = st.outbound := by
          by_cases hfo : (!el.firebaseBroadcastOnce) = true <;> simp [hfo, hcl, heapModify]
        rw [this] at h
        exact h
      · right
        rw [h.1, hcl]
        rfl
  · intro hs ho hne
    have hob : (bd.owner == "") = false := by
      simp [ho]
    have hocb : (bd.owner == st.clientId) = false := by
      simp [hne]
    rw [broadcastEntity]
    simp [hheap, hbd, hs, hob, hocb]
  · intro h
    by_cases hc : st.connected
    · cases hst : st.time with
      | none =>
        have hrun : tick t st = tickLoop st.broadcastingEntities { st with time := some t } := by
          simp [tick, hc, hst]
        rw [hrun]
        have hp := tickLoop_owner_pres st.broadcastingEntities { st with time := some t } r h
        have hcid := (tickLoop_frame st.broadcastingEntities { st with time := some t }).2.2.2.1
        exact hp.trans (congrArg some hcid)
      | some t0 =>
        by_cases hlt : t - t0 < st.interval
        · have hrun : tick t st = (st, true) := by
            simp [tick, hc, hst, hlt]
          rw [hrun]
          exact h
        · have hrun : tick t st = tickLoop st.broadcastingEntities { st with time := some t } := by
            simp [tick, hc, hst, hlt]
          rw [hrun]
          have hp := tickLoop_owner_pres st.broadcastingEntities { st with time := some t } r h
          have hcid := (tickLoop_frame st.broadcastingEntities { st with time := some t }).2.2.2.1
          exact hp.trans (congrArg some hcid)
    · have hrun : tick t st = (st, true) := by
        simp [tick, hc]
      rw [hrun]
      exact h

/-- The broadcast configuration of `exEntity`. -/
def exBd : BroadcastData :=
  { id := "k0", components := ["position"], componentsOnce := [],
    shared := true, owner := "" }

/-- The `exEntity` scene entity with its owner already claimed by this
client. -/
def exEntityOwned : Entity :=
  { exEntity with broadcast := some { exBd with owner := "c0" } }

/-- The system broadcasting the already-owned entity. -/
def exStateOwned : SystemState :=
  { exState with heap := [(0, exEntityOwned)] }

/-- The `exEntity` scene entity owned by a different client. -/
def exEntityOther : Entity :=
  { exEntity with broadcast := some { exBd with owner := "c1" } }

/-- The system broadcasting the foreign-owned entity. -/
def exStateOther : SystemState :=
  { exState with heap := [(0, exEntityOther)] }

/-- Witness for C1: the unowned shared entity is claimed with owner `c0`
and its records carry that owner; the foreign-owned entity is skipped
unchanged; a tick keeps the claimed owner. -/
theorem tick_shared_ownership_witness :
    (ownerOf (broadcastEntity ("box", 0) exState).1 0 = some "c0" ∧
      ∀ rec ∈ ((broadcastEntity ("box", 0) exState).1).outbound,
        rec ∈ exState.outbound ∨ rec.owner = some "c0") ∧
    broadcastEntity ("box", 0) exStateOther = (exStateOther, true) ∧
    ownerOf (tick 100 exStateOwned).1 0 = some "c0" :=
  ⟨(tick_shared_ownership exState "box" 0 exEntity exBd 100 rfl rfl).1 rfl rfl,
   (tick_shared_ownership exStateOther "box" 0 exEntityOther { exBd with owner := "c1" } 100
      rfl rfl).2.1 rfl (by decide) (by decide),
   (tick_shared_ownership exStateOwned "box" 0 exEntityOwned { exBd with owner := "c0" } 100
      rfl rfl).2.2 rfl⟩

/-! Claim C3. -/

/-- A successful run of the added handler on an unknown identifier leaves
the identifier truthy in the Replica Table. -/
theorem added_success_truthy (st : SystemState) (id : String)
    (data : List (String × Value)) (st1 : SystemState)
    (hrun : handleEntityAdded id data st = (st1, true))
    (hu1 : truthyRef (alistLookup st.entities id) = false)
    (hu2 : (alistLookup st.broadcastingEntities id).isSome = false) :
    ∃ r, alistLookup st1.entities id = some (some r) := by
  rw [handleEntityAdded] at hrun
  simp only [hu1, hu2, Bool.or_self, Bool.false_eq_true, if_false] at hrun
  cases hfb : alistLookup data "firebase-broadcast" with
  | none =>
    rw [hfb] at hrun
    cases hrun
  | some fbv =>
    rw [hfb] at hrun
    by_cases hsh : (isSharedTrue fbv && truthyOpt (alistLookup data "id")) = true
    · simp only [hsh, if_true] at hrun
      cases hq : querySelectorId st (jsToString ((alistLookup data "id").getD (Value.vstr ""))) with
      | none =>
        rw [hq] at hrun
        have hall := ((applyFields_none true data
          { st with entities := alistInsert st.entities id none }).2).mp (by rw [hrun])
        have hid : truthyOpt (alistLookup data "id") = true := by
          have := hsh
          rw [Bool.and_eq_true] at this
          exact this.2
        cases hlid : alistLookup data "id" with
        | none =>
          rw [hlid] at hid
          cases hid
        | some v =>
          have hmem := alistLookup_mem hlid
          have hbad := hall ("id", v) hmem
          simp at hbad
      | some rq =>
        rw [hq] at hrun
        have hfst : (applyFields true (some rq) data
            { st with entities := alistInsert st.entities id (some rq) }).1 = st1 :=
          congrArg Prod.fst hrun
        have hent := (applyFields_frame true (some rq) data
          { st with entities := alistInsert st.entities id (some rq) }).1
        refine ⟨rq, ?_⟩
        rw [← hfst, hent]
        exact alistLookup_insert_self st.entities id (some rq)
    · simp only [hsh, Bool.false_eq_true, if_false] at hrun
      cases happ : applyFields true (some st.nextRef) data
          { st with
            heap := alistInsert st.heap st.nextRef newEntity
            nextRef := st.nextRef + 1
            entities := alistInsert st.entities id (some st.nextRef) } with
      | mk st2 ok =>
        rw [happ] at hrun
        cases ok with
        | false => cases hrun
        | true =>
          have hst1 : st1 = heapModify st2 st.nextRef (fun e =>
              { e with parent :=
                  match alistLookup data "parentId" with
                  | some (.vstr s) =>
                    match alistLookup st2.entities s with
                    | some (some p) => .ent p
                    | _ => .scene
                  | _ => .scene }) := by
            have := congrArg Prod.fst hrun
            exact this.symm
          have hent := (applyFields_frame true (some st.nextRef) data
            { st with
              heap := alistInsert st.heap st.nextRef newEntity
              nextRef := st.nextRef + 1
              entities := alistInsert st.entities id (some st.nextRef) }).1
          rw [happ] at hent
          refine ⟨st.nextRef, ?_⟩
          rw [hst1]
          show alistLookup st2.entities id = some (some st.nextRef)
          rw [hent]
          exact alistLookup_insert_self st.entities id (some st.nextRef)

/-- C3: the added handler is idempotent in the remote identifier — a known
identifier (truthy in either table) makes it a no-op, a second delivery of
an event that succeeded changes nothing, and a successful first delivery
of an unknown identifier leaves exactly its Replica Table binding behind
(src/index.js line 77). -/
theorem added_idempotent (st : SystemState) (id : String)
    (data : List (String × Value)) :
    ((truthyRef (alistLookup st.entities id) ||
        (alistLookup st.broadcastingEntities id).isSome) = true →
      handleEntityAdded id data st = (st, true)) ∧
    (∀ st1, handleEntityAdded id data st = (st1, true) →
      handleEntityAdded id data st1 = (st1, true)) ∧
    (truthyRef (alistLookup st.entities id) = false →
      (alistLookup st.broadcastingEntities id).isSome = false →
      ∀ st1, handleEntityAdded id data st = (st1, true) →
        ∃ r, alistLookup st1.entities id = some (some r)) := by
  refine ⟨?_, ?_, ?_⟩
  · intro hk
    rw [handleEntityAdded]
    simp [hk]
  · intro st1 hrun
    by_cases hk : (truthyRef (alistLookup st.entities id) ||
        (alistLookup st.broadcastingEntities id).isSome) = true
    · have hnoop : handleEntityAdded id data st = (st, true) := by
        rw [handleEntityAdded]
        simp [hk]
      rw [hnoop] at hrun
      injection hrun with h1 h2
      subst h1
      exact hnoop
    · rw [Bool.or_eq_true] at hk
      push_neg at hk
      have hu1 : truthyRef (alistLookup st.entities id) = false := by
        cases h : truthyRef (alistLookup st.entities id)
        · rfl
        · exact absurd h hk.1
      have hu2 : (alistLookup st.broadcastingEntities id).isSome = false := by
        cases h : (alistLookup st.broadcastingEntities id).isSome
        · rfl
        · exact absurd h hk.2
      obtain ⟨r, hr⟩ := added_success_truthy st id data st1 hrun hu1 hu2
      rw [handleEntityAdded]
      simp [truthyRef, hr]
  · intro hu1 hu2 st1 hrun
    exact added_success_truthy st id data st1 hrun hu1 hu2

/-- The wire record of the C3 scenario: an unshared entity with one
component. -/
def exC3Data : List (String × Value) :=
  [("firebase-broadcast", Value.vobj [("shared", Value.vbool false)]),
   ("position", Value.vstr "1 1 1")]

/-- The system after the first delivery of the C3 added event. -/
def exC3St1 : SystemState := (handleEntityAdded "e9" exC3Data exStateEmpty).1

/-- Witness for C3: a known identifier is ignored; the second delivery of
the concrete added event is the identity; exactly one Replica Table
binding results. -/
theorem added_idempotent_witness :
    handleEntityAdded "box" exC3Data exState = (exState, true) ∧
    handleEntityAdded "e9" exC3Data exC3St1 = (exC3St1, true) ∧
    (∃ r, alistLookup exC3St1.entities "e9" = some (some r)) :=
  ⟨(added_idempotent exState "box" exC3Data).1 rfl,
   (added_idempotent exStateEmpty "e9" exC3Data).2.1 exC3St1 rfl,
   (added_idempotent exStateEmpty "e9" exC3Data).2.2 rfl rfl exC3St1 rfl⟩

end AframeFirebase
